import Mathlib

/-!
Verification of the catalog cross-matching core of the repository:
the function `source_match` in `TCOffsetFunctions.py`.

The Python function receives the names of two gaussclumps catalogs in FITS
format and reads them with `astropy.io.fits.getdata`; catalog ingestion is out
of scope, so here a catalog is modelled as the in-memory list of its records
(columns `Cen1`, `Cen2`, `Peak`, `GCFWHM1`, `GCFWHM2`).  Floating point
arithmetic is idealised as exact real arithmetic.  The `-1` sentinels used by
the Python code for `mindist` / `match_ind` / `matched_sources[i]` are
modelled with `Option`, and the `targ_matchcheck` flag array is modelled as
the list of target indices already claimed; both translations preserve the
branch structure of the loops line by line.
-/

namespace TC

noncomputable section

/-- One row of a gaussclumps catalog: centre coordinates (`Cen1`, `Cen2`),
peak brightness (`Peak`) and the two FWHM extents (`GCFWHM1`, `GCFWHM2`). -/
structure SourceRecord where
  cen1 : ℝ
  cen2 : ℝ
  peak : ℝ
  fwhm1 : ℝ
  fwhm2 : ℝ

instance : Inhabited SourceRecord := ⟨⟨0, 0, 0, 0, 0⟩⟩

/-- Effective radius `np.sqrt(np.multiply(fwhm1, fwhm2)) * 1.5`
(`TCOffsetFunctions.py`, lines 41 and 57). -/
def effRad (s : SourceRecord) : ℝ :=
  Real.sqrt (s.fwhm1 * s.fwhm2) * 1.5

/-- Planar Euclidean distance between two source positions, as computed by
`ssd.cdist(ref_coords, targ_coords, metric='euclidean')` on line 89. -/
def dist (r t : SourceRecord) : ℝ :=
  Real.sqrt ((r.cen1 - t.cen1) ^ 2 + (r.cen2 - t.cen2) ^ 2)

/-- The inner loop over target sources (lines 80 to 108).  `j` is the index of
the head of the remaining target list `ts`; `claimed` is the set of target
indices with `targ_matchcheck[j] == 1`; the accumulator holds the running
`(match_ind, mindist)` pair, with `none` standing for the initial
`mindist == -1` state.  A target is considered only if it is unclaimed and at
distance strictly below `maxsep`; it replaces the running minimum only when
its distance is strictly smaller (so an equal distance never overwrites). -/
def scanAux (r : SourceRecord) (claimed : List ℕ) (maxsep : ℝ) :
    List SourceRecord → ℕ → Option (ℕ × ℝ) → Option (ℕ × ℝ)
  | [], _, acc => acc
  | t :: ts, j, acc =>
      scanAux r claimed maxsep ts (j + 1)
        (if j ∈ claimed then acc
         else if dist r t < maxsep then
           match acc with
           | none => some (j, dist r t)
           | some (k, m) => if dist r t < m then some (j, dist r t) else some (k, m)
         else acc)

/-- The full inner scan for one reference source: lines 76 to 108. -/
def scanTargets (r : SourceRecord) (targs : List SourceRecord)
    (claimed : List ℕ) (maxsep : ℝ) : Option (ℕ × ℝ) :=
  scanAux r claimed maxsep targs 0 none

/-- The outer loop over reference sources (lines 65 to 116).  `i` is the index
of the head of the remaining reference list; `claimed` collects the target
indices already matched (`targ_matchcheck`), and `pairs` the
`(reference index, target index)` pairs recorded in `matched_sources`. -/
def matchAux (targs : List SourceRecord) (minpeak maxrad maxsep : ℝ) :
    List SourceRecord → ℕ → List ℕ → List (ℕ × ℕ) → List (ℕ × ℕ)
  | [], _, _, pairs => pairs
  | rf :: rs, i, claimed, pairs =>
      if effRad rf > maxrad then
        matchAux targs minpeak maxrad maxsep rs (i + 1) claimed pairs
      else if rf.peak < minpeak then
        matchAux targs minpeak maxrad maxsep rs (i + 1) claimed pairs
      else
        match scanTargets rf targs claimed maxsep with
        | some (j, _) =>
            matchAux targs minpeak maxrad maxsep rs (i + 1)
              (claimed ++ [j]) (pairs ++ [(i, j)])
        | none => matchAux targs minpeak maxrad maxsep rs (i + 1) claimed pairs

/-- The MatchResult of one call: the list of `(reference index, target index)`
pairs, in increasing reference-index order (the non-`-1` entries of
`matched_sources`). -/
def matchedPairs (ref_sources targ_sources : List SourceRecord)
    (minpeak maxrad maxsep : ℝ) : List (ℕ × ℕ) :=
  matchAux targ_sources minpeak maxrad maxsep ref_sources 0 [] []

/-- Arithmetic mean, as computed by `np.average` (lines 162 to 165). -/
def npAverage (l : List ℝ) : ℝ := l.sum / l.length

/-- Population standard deviation, as computed by `np.std` (lines 168 to 171):
the square root of the mean squared deviation, dividing by N and not N-1. -/
def npStd (l : List ℝ) : ℝ :=
  Real.sqrt (((l.map fun x => (x - npAverage l) ^ 2).sum) / l.length)

/-- Per-pair x offsets `(targ_posxvals[j] - ref_posxvals[i]) * 3600.0`
(lines 149 and 150), in MatchResult order. -/
def xoffList (refs targs : List SourceRecord) (pairs : List (ℕ × ℕ)) : List ℝ :=
  pairs.map fun p => ((targs.getD p.2 default).cen1 - (refs.getD p.1 default).cen1) * 3600

/-- Per-pair y offsets `(targ_posyvals[j] - ref_posyvals[i]) * 3600.0`
(lines 151 and 152). -/
def yoffList (refs targs : List SourceRecord) (pairs : List (ℕ × ℕ)) : List ℝ :=
  pairs.map fun p => ((targs.getD p.2 default).cen2 - (refs.getD p.1 default).cen2) * 3600

/-- Per-pair peak ratios `targ_peakvals[j] / ref_peakvals[i]`
(lines 153 and 154). -/
def peakrList (refs targs : List SourceRecord) (pairs : List (ℕ × ℕ)) : List ℝ :=
  pairs.map fun p => (targs.getD p.2 default).peak / (refs.getD p.1 default).peak

/-- Per-pair effective-radius ratios `targ_rvals[j] / ref_rvals[i]`
(lines 155 and 156). -/
def rrList (refs targs : List SourceRecord) (pairs : List (ℕ × ℕ)) : List ℝ :=
  pairs.map fun p => effRad (targs.getD p.2 default) / effRad (refs.getD p.1 default)

/-- The whole of `source_match` (lines 27 to 181), with catalog ingestion
abstracted away: the first argument is the target catalog (`cat_name`), the
second the reference catalog (`ref_name`), mirroring the Python signature.
`some (off, err)` is the `return off, err` of line 174 and `none` is the
`return [None,None,None,None], [None,None,None,None]` of line 180. -/
def source_match (cat_sources ref_sources : List SourceRecord)
    (minpeak maxrad maxsep : ℝ) :
    Option ((ℝ × ℝ × ℝ × ℝ) × (ℝ × ℝ × ℝ × ℝ)) :=
  let pairs := matchedPairs ref_sources cat_sources minpeak maxrad maxsep
  if 0 < pairs.length then
    some ((npAverage (xoffList ref_sources cat_sources pairs),
           npAverage (yoffList ref_sources cat_sources pairs),
           npAverage (peakrList ref_sources cat_sources pairs),
           npAverage (rrList ref_sources cat_sources pairs)),
          (npStd (xoffList ref_sources cat_sources pairs),
           npStd (yoffList ref_sources cat_sources pairs),
           npStd (peakrList ref_sources cat_sources pairs),
           npStd (rrList ref_sources cat_sources pairs)))
  else none

/-! Specification-side predicates about the matcher state. -/

/-- Eligibility of target index `k` for the reference source `r` at a moment
when the targets in `claimed` are already matched: the index is in range, the
target is unclaimed and its distance to `r` is strictly below `maxsep`. -/
def eligTarget (r : SourceRecord) (targs : List SourceRecord) (claimed : List ℕ)
    (maxsep : ℝ) (k : ℕ) : Prop :=
  k < targs.length ∧ k ∉ claimed ∧ dist r (targs.getD k default) < maxsep

/-- State of the running `(match_ind, mindist)` pair after the first `n`
target indices have been examined: either no eligible target has been seen,
or the pair holds the first-seen closest eligible target among those `n`. -/
def scanInv (r : SourceRecord) (targs : List SourceRecord) (claimed : List ℕ)
    (maxsep : ℝ) (n : ℕ) : Option (ℕ × ℝ) → Prop
  | none => ∀ k < n, ¬ eligTarget r targs claimed maxsep k
  | some (j, d) =>
      j < n ∧ eligTarget r targs claimed maxsep j ∧
      d = dist r (targs.getD j default) ∧
      (∀ k < n, eligTarget r targs claimed maxsep k →
        d ≤ dist r (targs.getD k default)) ∧
      (∀ k < j, eligTarget r targs claimed maxsep k →
        d < dist r (targs.getD k default))

/-- A reference source is skipped by the per-source filter of lines 68 and 69
exactly when its effective radius strictly exceeds `maxrad` or its peak is
strictly below `minpeak`; both bounds are inclusive for eligibility. -/
def skipRef (rf : SourceRecord) (minpeak maxrad : ℝ) : Prop :=
  effRad rf > maxrad ∨ rf.peak < minpeak

/-- Invariant carried by the outer loop: every recorded pair has a reference
index below the loop position, an unfiltered reference source, an in-range
target at distance strictly below `maxsep`, and a claimed target; and no two
recorded pairs share a target index. -/
def matchInv (refs targs : List SourceRecord) (minpeak maxrad maxsep : ℝ)
    (i0 : ℕ) (claimed : List ℕ) (pairs : List (ℕ × ℕ)) : Prop :=
  (∀ p ∈ pairs, p.1 < i0 ∧
      ¬ skipRef (refs.getD p.1 default) minpeak maxrad ∧
      p.2 < targs.length ∧
      dist (refs.getD p.1 default) (targs.getD p.2 default) < maxsep ∧
      p.2 ∈ claimed) ∧
  (pairs.map Prod.snd).Nodup

/-! Concrete catalogs used in the scenario evaluations. -/

/-- Scenario A reference source: position (10, 20) degrees, peak 1, FWHM 4 by 4. -/
def refA : SourceRecord := ⟨10, 20, 1, 4, 4⟩

/-- Scenario A target source: position (10.0003, 20.0002), peak 1.05, FWHM 4 by 4. -/
def targA : SourceRecord := ⟨10.0003, 20.0002, 1.05, 4, 4⟩

/-- Generic source at the origin with peak 1 and FWHM 4 by 4. -/
def srcO : SourceRecord := ⟨0, 0, 1, 4, 4⟩

/-- Source at (3, 4), at distance exactly 5 from the origin. -/
def src345 : SourceRecord := ⟨3, 4, 1, 4, 4⟩

/-- Source at (4, 3), also at distance exactly 5 from the origin. -/
def src435 : SourceRecord := ⟨4, 3, 1, 4, 4⟩

/-- Source at (6, 0), at distance exactly 5 from (3, 4). -/
def srcR6 : SourceRecord := ⟨6, 0, 1, 4, 4⟩

/-- Source at (2, 0). -/
def srcR2 : SourceRecord := ⟨2, 0, 1, 4, 4⟩

/-- Source at (1, 0). -/
def srcT1 : SourceRecord := ⟨1, 0, 1, 4, 4⟩

/-- Source at (3.2, 0). -/
def srcT32 : SourceRecord := ⟨3.2, 0, 1, 4, 4⟩

/-- Boundary reference source: peak exactly 0.2 and effective radius exactly 6. -/
def refB : SourceRecord := ⟨0, 0, 0.2, 4, 4⟩

/-- Reference source with effective radius 50 (FWHM 100/3 by 100/3). -/
def refFat : SourceRecord := ⟨0, 0, 1, 100/3, 100/3⟩

/-- Reference source with peak exactly 0 at the origin. -/
def refZ : SourceRecord := ⟨0, 0, 0, 4, 4⟩

/-- Source at position (3, 4) with peak and FWHM values different from
`src345`. -/
def srcAlt : SourceRecord := ⟨3, 4, 7, 5, 6⟩

/-! Step equations of the two loops, used to evaluate concrete runs. -/

lemma scanAux_nil (r : SourceRecord) (claimed : List ℕ) (maxsep : ℝ)
    (j : ℕ) (acc : Option (ℕ × ℝ)) :
    scanAux r claimed maxsep [] j acc = acc := rfl

lemma scanAux_cons (r : SourceRecord) (claimed : List ℕ) (maxsep : ℝ)
    (t : SourceRecord) (ts : List SourceRecord) (j : ℕ) (acc : Option (ℕ × ℝ)) :
    scanAux r claimed maxsep (t :: ts) j acc =
      scanAux r claimed maxsep ts (j + 1)
        (if j ∈ claimed then acc
         else if dist r t < maxsep then
           match acc with
           | none => some (j, dist r t)
           | some (k, m) => if dist r t < m then some (j, dist r t) else some (k, m)
         else acc) := rfl

lemma matchAux_nil (targs : List SourceRecord) (minpeak maxrad maxsep : ℝ)
    (i : ℕ) (claimed : List ℕ) (pairs : List (ℕ × ℕ)) :
    matchAux targs minpeak maxrad maxsep [] i claimed pairs = pairs := rfl

lemma matchAux_cons (targs : List SourceRecord) (minpeak maxrad maxsep : ℝ)
    (rf : SourceRecord) (rs : List SourceRecord) (i : ℕ)
    (claimed : List ℕ) (pairs : List (ℕ × ℕ)) :
    matchAux targs minpeak maxrad maxsep (rf :: rs) i claimed pairs =
      (if effRad rf > maxrad then
        matchAux targs minpeak maxrad maxsep rs (i + 1) claimed pairs
      else if rf.peak < minpeak then
        matchAux targs minpeak maxrad maxsep rs (i + 1) claimed pairs
      else
        match scanTargets rf targs claimed maxsep with
        | some (j, _) =>
            matchAux targs minpeak maxrad maxsep rs (i + 1)
              (claimed ++ [j]) (pairs ++ [(i, j)])
        | none => matchAux targs minpeak maxrad maxsep rs (i + 1) claimed pairs) := rfl

/-! Invariant of the inner scan. -/

/-- Examining one more index that is not eligible preserves the invariant. -/
lemma scanInv_succ_of_not_elig {r : SourceRecord} {targs : List SourceRecord}
    {claimed : List ℕ} {maxsep : ℝ} {n : ℕ} {acc : Option (ℕ × ℝ)}
    (h : ¬ eligTarget r targs claimed maxsep n)
    (hacc : scanInv r targs claimed maxsep n acc) :
    scanInv r targs claimed maxsep (n + 1) acc := by
  cases acc with
  | none =>
      intro k hk hek
      rcases Nat.lt_succ_iff_lt_or_eq.mp hk with h1 | h1
      · exact hacc k h1 hek
      · exact h (h1 ▸ hek)
  | some p =>
      obtain ⟨j, d⟩ := p
      obtain ⟨h1, h2, h3, h4, h5⟩ := hacc
      refine ⟨Nat.lt_succ_of_lt h1, h2, h3, ?_, h5⟩
      intro k hk hek
      rcases Nat.lt_succ_iff_lt_or_eq.mp hk with h6 | h6
      · exact h4 k h6 hek
      · exact absurd (h6 ▸ hek) h

/-- Main induction for the inner scan: running the loop over the suffix of the
target catalog that starts at index `j0`, from a state satisfying the
invariant for the first `j0` indices, yields a state satisfying the invariant
for the whole catalog. -/
lemma scanAux_inv (r : SourceRecord) (targs : List SourceRecord)
    (claimed : List ℕ) (maxsep : ℝ) :
    ∀ (ts : List SourceRecord) (j0 : ℕ) (acc : Option (ℕ × ℝ)),
      (∀ m, m < ts.length → ts.getD m default = targs.getD (j0 + m) default) →
      j0 + ts.length = targs.length →
      scanInv r targs claimed maxsep j0 acc →
      scanInv r targs claimed maxsep targs.length
        (scanAux r claimed maxsep ts j0 acc) := by
  intro ts
  induction ts with
  | nil =>
      intro j0 acc hsuff hlen hacc
      rw [scanAux_nil]
      have hj : j0 = targs.length := by simpa using hlen
      rwa [← hj]
  | cons t ts ih =>
      intro j0 acc hsuff hlen hacc
      have hlen' : (j0 + 1) + ts.length = targs.length := by
        simp only [List.length_cons] at hlen; omega
      have hj0 : j0 < targs.length := by
        simp only [List.length_cons] at hlen; omega
      have h0 : t = targs.getD j0 default := by
        simpa using hsuff 0 (by simp)
      have hsuff' : ∀ m, m < ts.length →
          ts.getD m default = targs.getD ((j0 + 1) + m) default := by
        intro m hm
        have h := hsuff (m + 1) (by simp only [List.length_cons]; omega)
        have harith : j0 + (m + 1) = (j0 + 1) + m := by omega
        simpa [harith] using h
      rw [scanAux_cons]
      apply ih (j0 + 1) _ hsuff' hlen'
      by_cases hc : j0 ∈ claimed
      · rw [if_pos hc]
        exact scanInv_succ_of_not_elig (fun he => he.2.1 hc) hacc
      · rw [if_neg hc]
        by_cases hd : dist r t < maxsep
        · rw [if_pos hd]
          have helig : eligTarget r targs claimed maxsep j0 :=
            ⟨hj0, hc, by rw [← h0]; exact hd⟩
          cases acc with
          | none =>
              refine ⟨Nat.lt_succ_self _, helig, by rw [h0], ?_, ?_⟩
              · intro k hk hek
                rcases Nat.lt_succ_iff_lt_or_eq.mp hk with h1 | h1
                · exact absurd hek (hacc k h1)
                · subst h1; rw [h0]
              · intro k hk hek
                exact absurd hek (hacc k hk)
          | some p =>
              obtain ⟨j, d⟩ := p
              obtain ⟨h1, h2, h3, h4, h5⟩ := hacc
              show scanInv r targs claimed maxsep (j0 + 1)
                (if dist r t < d then some (j0, dist r t) else some (j, d))
              by_cases hlt : dist r t < d
              · rw [if_pos hlt]
                refine ⟨Nat.lt_succ_self _, helig, by rw [h0], ?_, ?_⟩
                · intro k hk hek
                  rcases Nat.lt_succ_iff_lt_or_eq.mp hk with h6 | h6
                  · have := h4 k h6 hek
                    linarith
                  · subst h6; rw [h0]
                · intro k hk hek
                  have := h4 k hk hek
                  linarith
              · rw [if_neg hlt]
                refine ⟨Nat.lt_succ_of_lt h1, h2, h3, ?_, h5⟩
                intro k hk hek
                rcases Nat.lt_succ_iff_lt_or_eq.mp hk with h6 | h6
                · exact h4 k h6 hek
                · subst h6
                  rw [← h0]
                  exact not_lt.mp hlt
        · rw [if_neg hd]
          refine scanInv_succ_of_not_elig ?_ hacc
          intro hek
          exact hd (by rw [h0]; exact hek.2.2)

/-- The invariant holds of the full inner scan. -/
lemma scanTargets_inv (r : SourceRecord) (targs : List SourceRecord)
    (claimed : List ℕ) (maxsep : ℝ) :
    scanInv r targs claimed maxsep targs.length
      (scanTargets r targs claimed maxsep) := by
  refine scanAux_inv r targs claimed maxsep targs 0 none (by simp) (by simp) ?_
  intro k hk
  exact absurd hk (Nat.not_lt_zero k)

/-- Characterisation of a successful inner scan: the selected target is
eligible, the recorded distance is its distance, no eligible target is
strictly closer, and every eligible target with a smaller index is strictly
farther (so the first-seen target wins ties). -/
lemma scanTargets_some {r : SourceRecord} {targs : List SourceRecord}
    {claimed : List ℕ} {maxsep : ℝ} {j : ℕ} {d : ℝ}
    (h : scanTargets r targs claimed maxsep = some (j, d)) :
    eligTarget r targs claimed maxsep j ∧
    d = dist r (targs.getD j default) ∧
    (∀ k, eligTarget r targs claimed maxsep k →
      d ≤ dist r (targs.getD k default)) ∧
    (∀ k < j, eligTarget r targs claimed maxsep k →
      d < dist r (targs.getD k default)) := by
  have hinv := scanTargets_inv r targs claimed maxsep
  rw [h] at hinv
  obtain ⟨h1, h2, h3, h4, h5⟩ := hinv
  exact ⟨h2, h3, fun k hek => h4 k hek.1 hek, h5⟩

/-- If some target is eligible, the inner scan does select one. -/
lemma scanTargets_isSome {r : SourceRecord} {targs : List SourceRecord}
    {claimed : List ℕ} {maxsep : ℝ} {k : ℕ}
    (h : eligTarget r targs claimed maxsep k) :
    ∃ j d, scanTargets r targs claimed maxsep = some (j, d) := by
  have hinv := scanTargets_inv r targs claimed maxsep
  cases hscan : scanTargets r targs claimed maxsep with
  | none =>
      rw [hscan] at hinv
      exact absurd h (hinv k h.1)
  | some p =>
      obtain ⟨j, d⟩ := p
      exact ⟨j, d, rfl⟩

/-! Invariant of the outer loop. -/

/-- The outer-loop invariant is monotone in the loop position. -/
lemma matchInv_mono {refs targs : List SourceRecord} {minpeak maxrad maxsep : ℝ}
    {i0 i1 : ℕ} {claimed : List ℕ} {pairs : List (ℕ × ℕ)} (h : i0 ≤ i1)
    (hinv : matchInv refs targs minpeak maxrad maxsep i0 claimed pairs) :
    matchInv refs targs minpeak maxrad maxsep i1 claimed pairs := by
  obtain ⟨h1, h2⟩ := hinv
  refine ⟨fun p hp => ?_, h2⟩
  obtain ⟨g1, g2, g3, g4, g5⟩ := h1 p hp
  exact ⟨lt_of_lt_of_le g1 h, g2, g3, g4, g5⟩

/-- Main induction for the outer loop: running it over the suffix of the
reference catalog that starts at index `i0`, from a state satisfying the
invariant, yields a pair list satisfying the invariant for the whole
catalog (with some final claimed set). -/
lemma matchAux_inv (refs targs : List SourceRecord)
    (minpeak maxrad maxsep : ℝ) :
    ∀ (rs : List SourceRecord) (i0 : ℕ) (claimed : List ℕ)
      (pairs : List (ℕ × ℕ)),
      (∀ m, m < rs.length → rs.getD m default = refs.getD (i0 + m) default) →
      i0 + rs.length = refs.length →
      matchInv refs targs minpeak maxrad maxsep i0 claimed pairs →
      ∃ C, matchInv refs targs minpeak maxrad maxsep refs.length C
        (matchAux targs minpeak maxrad maxsep rs i0 claimed pairs) := by
  intro rs
  induction rs with
  | nil =>
      intro i0 claimed pairs hsuff hlen hinv
      rw [matchAux_nil]
      have hi : i0 = refs.length := by simpa using hlen
      exact ⟨claimed, hi ▸ hinv⟩
  | cons rf rs ih =>
      intro i0 claimed pairs hsuff hlen hinv
      have hlen' : (i0 + 1) + rs.length = refs.length := by
        simp only [List.length_cons] at hlen; omega
      have hi0 : i0 < refs.length := by
        simp only [List.length_cons] at hlen; omega
      have h0 : rf = refs.getD i0 default := by
        simpa using hsuff 0 (by simp)
      have hsuff' : ∀ m, m < rs.length →
          rs.getD m default = refs.getD ((i0 + 1) + m) default := by
        intro m hm
        have h := hsuff (m + 1) (by simp only [List.length_cons]; omega)
        have harith : i0 + (m + 1) = (i0 + 1) + m := by omega
        simpa [harith] using h
      rw [matchAux_cons]
      by_cases hr : effRad rf > maxrad
      · rw [if_pos hr]
        exact ih (i0 + 1) claimed pairs hsuff' hlen'
          (matchInv_mono (Nat.le_succ i0) hinv)
      · rw [if_neg hr]
        by_cases hp : rf.peak < minpeak
        · rw [if_pos hp]
          exact ih (i0 + 1) claimed pairs hsuff' hlen'
            (matchInv_mono (Nat.le_succ i0) hinv)
        · rw [if_neg hp]
          cases hscan : scanTargets rf targs claimed maxsep with
          | none =>
              exact ih (i0 + 1) claimed pairs hsuff' hlen'
                (matchInv_mono (Nat.le_succ i0) hinv)
          | some q =>
              obtain ⟨j, d⟩ := q
              obtain ⟨⟨hjlen, hjfree, hjdist⟩, -, -, -⟩ := scanTargets_some hscan
              apply ih (i0 + 1) (claimed ++ [j]) (pairs ++ [(i0, j)]) hsuff' hlen'
              obtain ⟨h1, h2⟩ := hinv
              constructor
              · intro p hmem
                rcases List.mem_append.mp hmem with hold | hnew
                · obtain ⟨g1, g2, g3, g4, g5⟩ := h1 p hold
                  exact ⟨Nat.lt_succ_of_lt g1, g2, g3, g4,
                    List.mem_append_left _ g5⟩
                · have hpeq : p = (i0, j) := by simpa using hnew
                  subst hpeq
                  refine ⟨Nat.lt_succ_self _, ?_, hjlen, ?_, ?_⟩
                  · rw [← h0]
                    intro hskip
                    exact hskip.elim hr hp
                  · rw [← h0]
                    exact hjdist
                  · exact List.mem_append_right _ (by simp)
              · have hjnot : j ∉ pairs.map Prod.snd := by
                  intro hj
                  obtain ⟨p, hpmem, hpsnd⟩ := List.mem_map.mp hj
                  have := (h1 p hpmem).2.2.2.2
                  rw [hpsnd] at this
                  exact hjfree this
                have hjnot2 : ∀ x : ℕ, (x, j) ∉ pairs := by
                  intro x hx
                  exact hjnot (List.mem_map.mpr ⟨(x, j), hx, rfl⟩)
                simpa [List.nodup_append] using ⟨h2, hjnot2⟩

/-- The outer-loop invariant holds of the MatchResult of a full run. -/
lemma matchedPairs_inv (refs targs : List SourceRecord)
    (minpeak maxrad maxsep : ℝ) :
    ∃ C, matchInv refs targs minpeak maxrad maxsep refs.length C
      (matchedPairs refs targs minpeak maxrad maxsep) := by
  refine matchAux_inv refs targs minpeak maxrad maxsep refs 0 [] []
    (by simp) (by simp) ?_
  exact ⟨fun p hp => absurd hp (List.not_mem_nil p), List.nodup_nil⟩

/-- With an empty target catalog the outer loop never adds a pair. -/
lemma matchAux_targs_nil (minpeak maxrad maxsep : ℝ) :
    ∀ (rs : List SourceRecord) (i : ℕ) (claimed : List ℕ)
      (pairs : List (ℕ × ℕ)),
      matchAux [] minpeak maxrad maxsep rs i claimed pairs = pairs := by
  intro rs
  induction rs with
  | nil => intro i claimed pairs; rfl
  | cons rf rs ih =>
      intro i claimed pairs
      rw [matchAux_cons]
      have hscan : scanTargets rf [] claimed maxsep = none := rfl
      rw [hscan]
      by_cases hr : effRad rf > maxrad
      · rw [if_pos hr]; exact ih _ _ _
      · rw [if_neg hr]
        by_cases hp : rf.peak < minpeak
        · rw [if_pos hp]; exact ih _ _ _
        · rw [if_neg hp]; exact ih _ _ _

/-! Helpers to evaluate the embedded functions on concrete catalogs. -/

lemma scanTargets_def (r : SourceRecord) (targs : List SourceRecord)
    (claimed : List ℕ) (maxsep : ℝ) :
    scanTargets r targs claimed maxsep = scanAux r claimed maxsep targs 0 none := rfl

lemma matchedPairs_def (ref_sources targ_sources : List SourceRecord)
    (minpeak maxrad maxsep : ℝ) :
    matchedPairs ref_sources targ_sources minpeak maxrad maxsep =
      matchAux targ_sources minpeak maxrad maxsep ref_sources 0 [] [] := rfl

lemma sqrt_eval {a b : ℝ} (hb : 0 ≤ b) (h : b ^ 2 = a) : Real.sqrt a = b := by
  rw [← h, Real.sqrt_sq hb]

lemma dist_eval {r t : SourceRecord} {c : ℝ} (hc : 0 ≤ c)
    (h : (r.cen1 - t.cen1) ^ 2 + (r.cen2 - t.cen2) ^ 2 = c ^ 2) :
    dist r t = c := sqrt_eval hc h.symm

lemma dist_lt_eval {r t : SourceRecord} {m : ℝ} (hm : 0 < m)
    (h : (r.cen1 - t.cen1) ^ 2 + (r.cen2 - t.cen2) ^ 2 < m ^ 2) :
    dist r t < m := by
  rw [dist]
  exact (Real.sqrt_lt' hm).mpr h

lemma dist_not_lt_eval {r t : SourceRecord} {m : ℝ} (hm : 0 < m)
    (h : (r.cen1 - t.cen1) ^ 2 + (r.cen2 - t.cen2) ^ 2 = m ^ 2) :
    ¬ dist r t < m := by
  rw [dist_eval (le_of_lt hm) h]
  exact lt_irrefl m

lemma effRad_eval {s : SourceRecord} {c : ℝ} (hc : 0 ≤ c)
    (h : c ^ 2 = s.fwhm1 * s.fwhm2) : effRad s = c * 1.5 := by
  rw [effRad, sqrt_eval hc h]

lemma npAverage_single (v : ℝ) : npAverage [v] = v := by
  simp [npAverage]

lemma npStd_single (v : ℝ) : npStd [v] = 0 := by
  simp [npStd, npAverage]

lemma effRad_refA : effRad refA = 6 := by
  have h := effRad_eval (s := refA) (c := 4) (by norm_num) (by norm_num [refA])
  rw [h]; norm_num

lemma effRad_targA : effRad targA = 6 := by
  have h := effRad_eval (s := targA) (c := 4) (by norm_num) (by norm_num [targA])
  rw [h]; norm_num

/-- Scenario A produces exactly one matched pair, reference 0 to target 0
(thresholds: minpeak 0.2, maxrad 30, maxsep 10 arcsec, that is 1/360 degree). -/
lemma run_A_pairs : matchedPairs [refA] [targA] 0.2 30 (1/360) = [(0, 0)] := by
  have hr : ¬ effRad refA > 30 := by rw [effRad_refA]; norm_num
  have hp : ¬ refA.peak < 0.2 := by norm_num [refA]
  have hd : dist refA targA < 1/360 :=
    dist_lt_eval (by norm_num) (by norm_num [refA, targA])
  have hscan : scanTargets refA [targA] [] (1/360) = some (0, dist refA targA) := by
    rw [scanTargets_def, scanAux_cons, if_neg (List.not_mem_nil 0), if_pos hd]
    rfl
  rw [matchedPairs_def, matchAux_cons, if_neg hr, if_neg hp, hscan]
  rfl

/-- The full Scenario A run: offsets 1.08 and 0.72 arcsec, peak ratio 1.05,
radius ratio 1, all four errors 0. -/
lemma run_A_result :
    source_match [targA] [refA] 0.2 30 (1/360) =
      some ((1.08, 0.72, 1.05, 1), (0, 0, 0, 0)) := by
  have hx : xoffList [refA] [targA] [(0, 0)] = [1.08] := by
    norm_num [xoffList, refA, targA]
  have hy : yoffList [refA] [targA] [(0, 0)] = [0.72] := by
    norm_num [yoffList, refA, targA]
  have hpk : peakrList [refA] [targA] [(0, 0)] = [1.05] := by
    norm_num [peakrList, refA, targA]
  have hrr : rrList [refA] [targA] [(0, 0)] = [1] := by
    simp only [rrList, List.map_cons, List.map_nil, List.getD_cons_zero]
    rw [effRad_refA, effRad_targA]
    norm_num
  simp only [source_match, run_A_pairs]
  rw [if_pos (by norm_num)]
  rw [hx, hy, hpk, hrr]
  simp [npAverage_single, npStd_single]

lemma effRad_fwhm4 {s : SourceRecord} (h1 : s.fwhm1 = 4) (h2 : s.fwhm2 = 4) :
    effRad s = 6 := by
  rw [effRad, h1, h2, sqrt_eval (b := 4) (by norm_num) (by norm_num)]
  norm_num

lemma effRad_refFat : effRad refFat = 50 := by
  have h := effRad_eval (s := refFat) (c := 100/3) (by norm_num) (by norm_num [refFat])
  rw [h]; norm_num

lemma notRad_srcO : ¬ effRad srcO > 30 := by
  rw [effRad_fwhm4 (by norm_num [srcO]) (by norm_num [srcO])]; norm_num

lemma notPeak_srcO : ¬ srcO.peak < 0.2 := by norm_num [srcO]

lemma notRad_srcR2 : ¬ effRad srcR2 > 30 := by
  rw [effRad_fwhm4 (by norm_num [srcR2]) (by norm_num [srcR2])]; norm_num

lemma notPeak_srcR2 : ¬ srcR2.peak < 0.2 := by norm_num [srcR2]

/-- Scenario D: the sole target lies at distance exactly `maxsep = 5`, so the
strict comparison rejects it and nothing is matched. -/
lemma run_D_pairs : matchedPairs [srcO] [src345] 0.2 30 5 = [] := by
  have hscan : scanTargets srcO [src345] [] 5 = none := by
    rw [scanTargets_def, scanAux_cons, if_neg (List.not_mem_nil 0),
      if_neg (dist_not_lt_eval (by norm_num) (by norm_num [srcO, src345]))]
    rfl
  rw [matchedPairs_def, matchAux_cons, if_neg notRad_srcO, if_neg notPeak_srcO, hscan]
  rfl

/-- The same pair of catalogs with `maxsep = 6` does match. -/
lemma run_D6_pairs : matchedPairs [srcO] [src345] 0.2 30 6 = [(0, 0)] := by
  have hd : dist srcO src345 < 6 :=
    dist_lt_eval (by norm_num) (by norm_num [srcO, src345])
  have hscan : scanTargets srcO [src345] [] 6 = some (0, dist srcO src345) := by
    rw [scanTargets_def, scanAux_cons, if_neg (List.not_mem_nil 0), if_pos hd]
    rfl
  rw [matchedPairs_def, matchAux_cons, if_neg notRad_srcO, if_neg notPeak_srcO, hscan]
  rfl

/-- A reference source sitting exactly on both filter bounds
(peak = minpeak = 0.2 and effective radius = maxrad = 6) is still matched. -/
lemma run_B_pairs : matchedPairs [refB] [srcO] 0.2 6 1 = [(0, 0)] := by
  have hr : ¬ effRad refB > 6 := by
    rw [effRad_fwhm4 (by norm_num [refB]) (by norm_num [refB])]; norm_num
  have hp : ¬ refB.peak < 0.2 := by norm_num [refB]
  have hd : dist refB srcO < 1 :=
    dist_lt_eval (by norm_num) (by norm_num [refB, srcO])
  have hscan : scanTargets refB [srcO] [] 1 = some (0, dist refB srcO) := by
    rw [scanTargets_def, scanAux_cons, if_neg (List.not_mem_nil 0), if_pos hd]
    rfl
  rw [matchedPairs_def, matchAux_cons, if_neg hr, if_neg hp, hscan]
  rfl

/-- With `minpeak = 0` a reference source of peak exactly 0 is eligible and
matches, so the aggregation divides by a zero reference peak. -/
lemma run_Z_pairs : matchedPairs [refZ] [srcO] 0 30 1 = [(0, 0)] := by
  have hr : ¬ effRad refZ > 30 := by
    rw [effRad_fwhm4 (by norm_num [refZ]) (by norm_num [refZ])]; norm_num
  have hp : ¬ refZ.peak < 0 := by norm_num [refZ]
  have hd : dist refZ srcO < 1 :=
    dist_lt_eval (by norm_num) (by norm_num [refZ, srcO])
  have hscan : scanTargets refZ [srcO] [] 1 = some (0, dist refZ srcO) := by
    rw [scanTargets_def, scanAux_cons, if_neg (List.not_mem_nil 0), if_pos hd]
    rfl
  rw [matchedPairs_def, matchAux_cons, if_neg hr, if_neg hp, hscan]
  rfl

/-- Inner scan with two targets at the same distance 5: the first-seen target
(index 0) is kept, because the second does not compare strictly smaller. -/
lemma run_tie_scan : scanTargets srcO [src345, src435] [] 6 = some (0, 5) := by
  have d0 : dist srcO src345 = 5 := dist_eval (by norm_num) (by norm_num [srcO, src345])
  have d1 : dist srcO src435 = 5 := dist_eval (by norm_num) (by norm_num [srcO, src435])
  have s1 : scanAux srcO [] 6 [src345, src435] 0 none =
      scanAux srcO [] 6 [src435] 1 (some (0, 5)) := by
    rw [scanAux_cons, d0, if_neg (List.not_mem_nil 0),
      if_pos (by norm_num : (5:ℝ) < 6)]
  have s2 : scanAux srcO [] 6 [src435] 1 (some (0, 5)) = some (0, 5) := by
    rw [scanAux_cons, d1, if_neg (List.not_mem_nil 1),
      if_pos (by norm_num : (5:ℝ) < 6)]
    show scanAux srcO [] 6 [] 2 (if (5:ℝ) < 5 then some (1, 5) else some (0, 5)) =
      some (0, 5)
    rw [if_neg (lt_irrefl (5:ℝ))]
    rfl
  rw [scanTargets_def, s1, s2]

/-- Order-dependence run 1: with reference order [origin, (2,0)], the origin
claims target (1,0) and then (2,0) claims target (3.2, 0). -/
lemma run_P1_pairs :
    matchedPairs [srcO, srcR2] [srcT1, srcT32] 0.2 30 1.5 = [(0, 0), (1, 1)] := by
  have dO1 : dist srcO srcT1 = 1 := dist_eval (by norm_num) (by norm_num [srcO, srcT1])
  have dO32 : dist srcO srcT32 = 3.2 :=
    dist_eval (by norm_num) (by norm_num [srcO, srcT32])
  have d21 : dist srcR2 srcT1 = 1 := dist_eval (by norm_num) (by norm_num [srcR2, srcT1])
  have d232 : dist srcR2 srcT32 = 1.2 :=
    dist_eval (by norm_num) (by norm_num [srcR2, srcT32])
  have hscan0 : scanTargets srcO [srcT1, srcT32] [] 1.5 = some (0, 1) := by
    have s1 : scanAux srcO [] 1.5 [srcT1, srcT32] 0 none =
        scanAux srcO [] 1.5 [srcT32] 1 (some (0, 1)) := by
      rw [scanAux_cons, dO1, if_neg (List.not_mem_nil 0),
        if_pos (by norm_num : (1:ℝ) < 1.5)]
    have s2 : scanAux srcO [] 1.5 [srcT32] 1 (some (0, 1)) = some (0, 1) := by
      rw [scanAux_cons, dO32, if_neg (List.not_mem_nil 1),
        if_neg (by norm_num : ¬ (3.2:ℝ) < 1.5)]
      rfl
    rw [scanTargets_def, s1, s2]
  have hscan1 : scanTargets srcR2 [srcT1, srcT32] [0] 1.5 = some (1, 1.2) := by
    have s1 : scanAux srcR2 [0] 1.5 [srcT1, srcT32] 0 none =
        scanAux srcR2 [0] 1.5 [srcT32] 1 none := by
      rw [scanAux_cons, if_pos (by simp : (0:ℕ) ∈ [0])]
    have s2 : scanAux srcR2 [0] 1.5 [srcT32] 1 none = some (1, 1.2) := by
      rw [scanAux_cons, d232, if_neg (by simp : ¬ (1:ℕ) ∈ [0]),
        if_pos (by norm_num : (1.2:ℝ) < 1.5)]
      rfl
    rw [scanTargets_def, s1, s2]
  rw [matchedPairs_def, matchAux_cons, if_neg notRad_srcO, if_neg notPeak_srcO, hscan0]
  show matchAux [srcT1, srcT32] 0.2 30 1.5 [srcR2] 1 [0] [(0, 0)] = [(0, 0), (1, 1)]
  rw [matchAux_cons, if_neg notRad_srcR2, if_neg notPeak_srcR2, hscan1]
  rfl

/-- Order-dependence run 2: with the reference order permuted to
[(2,0), origin], (2,0) now claims target (1,0) (it is the closer of its two
candidates) and the origin is left with no candidate at all. -/
lemma run_P2_pairs :
    matchedPairs [srcR2, srcO] [srcT1, srcT32] 0.2 30 1.5 = [(0, 0)] := by
  have dO32 : dist srcO srcT32 = 3.2 :=
    dist_eval (by norm_num) (by norm_num [srcO, srcT32])
  have d21 : dist srcR2 srcT1 = 1 := dist_eval (by norm_num) (by norm_num [srcR2, srcT1])
  have d232 : dist srcR2 srcT32 = 1.2 :=
    dist_eval (by norm_num) (by norm_num [srcR2, srcT32])
  have hscan0 : scanTargets srcR2 [srcT1, srcT32] [] 1.5 = some (0, 1) := by
    have s1 : scanAux srcR2 [] 1.5 [srcT1, srcT32] 0 none =
        scanAux srcR2 [] 1.5 [srcT32] 1 (some (0, 1)) := by
      rw [scanAux_cons, d21, if_neg (List.not_mem_nil 0),
        if_pos (by norm_num : (1:ℝ) < 1.5)]
    have s2 : scanAux srcR2 [] 1.5 [srcT32] 1 (some (0, 1)) = some (0, 1) := by
      rw [scanAux_cons, d232, if_neg (List.not_mem_nil 1),
        if_pos (by norm_num : (1.2:ℝ) < 1.5)]
      show scanAux srcR2 [] 1.5 [] 2
        (if (1.2:ℝ) < 1 then some (1, 1.2) else some (0, 1)) = some (0, 1)
      rw [if_neg (by norm_num : ¬ (1.2:ℝ) < 1)]
      rfl
    rw [scanTargets_def, s1, s2]
  have hscan1 : scanTargets srcO [srcT1, srcT32] [0] 1.5 = none := by
    have s1 : scanAux srcO [0] 1.5 [srcT1, srcT32] 0 none =
        scanAux srcO [0] 1.5 [srcT32] 1 none := by
      rw [scanAux_cons, if_pos (by simp : (0:ℕ) ∈ [0])]
    have s2 : scanAux srcO [0] 1.5 [srcT32] 1 none = none := by
      rw [scanAux_cons, dO32, if_neg (by simp : ¬ (1:ℕ) ∈ [0]),
        if_neg (by norm_num : ¬ (3.2:ℝ) < 1.5)]
      rfl
    rw [scanTargets_def, s1, s2]
  rw [matchedPairs_def, matchAux_cons, if_neg notRad_srcR2, if_neg notPeak_srcR2, hscan0]
  show matchAux [srcT1, srcT32] 0.2 30 1.5 [srcO] 1 [0] [(0, 0)] = [(0, 0)]
  rw [matchAux_cons, if_neg notRad_srcO, if_neg notPeak_srcO, hscan1]
  rfl

lemma source_match_def (cat_sources ref_sources : List SourceRecord)
    (minpeak maxrad maxsep : ℝ) :
    source_match cat_sources ref_sources minpeak maxrad maxsep =
      if 0 < (matchedPairs ref_sources cat_sources minpeak maxrad maxsep).length then
        some ((npAverage (xoffList ref_sources cat_sources
                 (matchedPairs ref_sources cat_sources minpeak maxrad maxsep)),
               npAverage (yoffList ref_sources cat_sources
                 (matchedPairs ref_sources cat_sources minpeak maxrad maxsep)),
               npAverage (peakrList ref_sources cat_sources
                 (matchedPairs ref_sources cat_sources minpeak maxrad maxsep)),
               npAverage (rrList ref_sources cat_sources
                 (matchedPairs ref_sources cat_sources minpeak maxrad maxsep))),
              (npStd (xoffList ref_sources cat_sources
                 (matchedPairs ref_sources cat_sources minpeak maxrad maxsep)),
               npStd (yoffList ref_sources cat_sources
                 (matchedPairs ref_sources cat_sources minpeak maxrad maxsep)),
               npStd (peakrList ref_sources cat_sources
                 (matchedPairs ref_sources cat_sources minpeak maxrad maxsep)),
               npStd (rrList ref_sources cat_sources
                 (matchedPairs ref_sources cat_sources minpeak maxrad maxsep))))
      else none := rfl

/-! Evaluation of the aggregation on the two-pair run of `run_P1_pairs`:
reference sources at (0,0) and (2,0), matched targets at (1,0) and (3.2,0). -/

lemma xoff_P1 : xoffList [srcO, srcR2] [srcT1, srcT32] [(0, 0), (1, 1)] =
    [3600, 4320] := by
  simp only [xoffList, List.map_cons, List.map_nil]
  rw [show ([srcT1, srcT32].getD (0 : ℕ) default) = srcT1 from rfl,
    show ([srcT1, srcT32].getD (1 : ℕ) default) = srcT32 from rfl,
    show ([srcO, srcR2].getD (0 : ℕ) default) = srcO from rfl,
    show ([srcO, srcR2].getD (1 : ℕ) default) = srcR2 from rfl]
  norm_num [srcO, srcR2, srcT1, srcT32]

lemma yoff_P1 : yoffList [srcO, srcR2] [srcT1, srcT32] [(0, 0), (1, 1)] =
    [0, 0] := by
  simp only [yoffList, List.map_cons, List.map_nil]
  rw [show ([srcT1, srcT32].getD (0 : ℕ) default) = srcT1 from rfl,
    show ([srcT1, srcT32].getD (1 : ℕ) default) = srcT32 from rfl,
    show ([srcO, srcR2].getD (0 : ℕ) default) = srcO from rfl,
    show ([srcO, srcR2].getD (1 : ℕ) default) = srcR2 from rfl]
  norm_num [srcO, srcR2, srcT1, srcT32]

lemma peakr_P1 : peakrList [srcO, srcR2] [srcT1, srcT32] [(0, 0), (1, 1)] =
    [1, 1] := by
  simp only [peakrList, List.map_cons, List.map_nil]
  rw [show ([srcT1, srcT32].getD (0 : ℕ) default) = srcT1 from rfl,
    show ([srcT1, srcT32].getD (1 : ℕ) default) = srcT32 from rfl,
    show ([srcO, srcR2].getD (0 : ℕ) default) = srcO from rfl,
    show ([srcO, srcR2].getD (1 : ℕ) default) = srcR2 from rfl]
  norm_num [srcO, srcR2, srcT1, srcT32]

lemma rr_P1 : rrList [srcO, srcR2] [srcT1, srcT32] [(0, 0), (1, 1)] =
    [1, 1] := by
  simp only [rrList, List.map_cons, List.map_nil]
  rw [show ([srcT1, srcT32].getD (0 : ℕ) default) = srcT1 from rfl,
    show ([srcT1, srcT32].getD (1 : ℕ) default) = srcT32 from rfl,
    show ([srcO, srcR2].getD (0 : ℕ) default) = srcO from rfl,
    show ([srcO, srcR2].getD (1 : ℕ) default) = srcR2 from rfl,
    effRad_fwhm4 (by norm_num [srcT1]) (by norm_num [srcT1]),
    effRad_fwhm4 (by norm_num [srcO]) (by norm_num [srcO]),
    effRad_fwhm4 (by norm_num [srcT32]) (by norm_num [srcT32]),
    effRad_fwhm4 (by norm_num [srcR2]) (by norm_num [srcR2])]
  norm_num

/-- The full two-pair run: mean x offset (3600 + 4320) / 2 = 3960 and its
error the population standard deviation sqrt(129600) = 360, dividing by
N = 2 and not N - 1 = 1 (the sample convention would give 360 * sqrt 2). -/
lemma run_P1_result :
    source_match [srcT1, srcT32] [srcO, srcR2] 0.2 30 1.5 =
      some ((3960, 0, 1, 1), (360, 0, 0, 0)) := by
  rw [source_match_def, run_P1_pairs, if_pos (by simp),
    xoff_P1, yoff_P1, peakr_P1, rr_P1]
  have a1 : npAverage [(3600 : ℝ), 4320] = 3960 := by
    rw [npAverage]; norm_num
  have a2 : npAverage [(0 : ℝ), 0] = 0 := by
    rw [npAverage]; norm_num
  have a3 : npAverage [(1 : ℝ), 1] = 1 := by
    rw [npAverage]; norm_num
  have s1 : npStd [(3600 : ℝ), 4320] = 360 := by
    rw [npStd, a1]
    have harg : (([(3600 : ℝ), 4320].map fun x => (x - 3960) ^ 2).sum) /
        (([(3600 : ℝ), 4320].length : ℝ)) = 129600 := by norm_num
    rw [harg]
    exact sqrt_eval (by norm_num) (by norm_num)
  have s2 : npStd [(0 : ℝ), 0] = 0 := by
    rw [npStd, a2]
    have harg : (([(0 : ℝ), 0].map fun x => (x - 0) ^ 2).sum) /
        (([(0 : ℝ), 0].length : ℝ)) = 0 := by norm_num
    rw [harg, Real.sqrt_zero]
  have s3 : npStd [(1 : ℝ), 1] = 0 := by
    rw [npStd, a3]
    have harg : (([(1 : ℝ), 1].map fun x => (x - 1) ^ 2).sum) /
        (([(1 : ℝ), 1].length : ℝ)) = 0 := by norm_num
    rw [harg, Real.sqrt_zero]
  rw [a1, a2, a3, s1, s2, s3]

/-! Congruence lemmas: the matching phase reads only the positions of the
target records, never their peak or FWHM fields. -/

lemma dist_congr {r t1 t2 : SourceRecord} (h1 : t1.cen1 = t2.cen1)
    (h2 : t1.cen2 = t2.cen2) : dist r t1 = dist r t2 := by
  rw [dist, dist, h1, h2]

/-- Pointwise position equality below the (common) length extends to all
indices, because both sides degenerate to the default record beyond it. -/
lemma getD_pos_all {cat1 cat2 : List SourceRecord}
    (hlen : cat1.length = cat2.length)
    (hpos : ∀ m, m < cat1.length →
      (cat1.getD m default).cen1 = (cat2.getD m default).cen1 ∧
      (cat1.getD m default).cen2 = (cat2.getD m default).cen2) :
    ∀ m, (cat1.getD m default).cen1 = (cat2.getD m default).cen1 ∧
      (cat1.getD m default).cen2 = (cat2.getD m default).cen2 := by
  intro m
  by_cases hm : m < cat1.length
  · exact hpos m hm
  · rw [List.getD_eq_default _ _ (not_lt.mp hm),
      List.getD_eq_default _ _ (hlen ▸ not_lt.mp hm)]
    exact ⟨rfl, rfl⟩

lemma scanAux_congr (r : SourceRecord) (claimed : List ℕ) (maxsep : ℝ) :
    ∀ (ts1 ts2 : List SourceRecord) (j : ℕ) (acc : Option (ℕ × ℝ)),
      ts1.length = ts2.length →
      (∀ m, m < ts1.length →
        (ts1.getD m default).cen1 = (ts2.getD m default).cen1 ∧
        (ts1.getD m default).cen2 = (ts2.getD m default).cen2) →
      scanAux r claimed maxsep ts1 j acc = scanAux r claimed maxsep ts2 j acc := by
  intro ts1
  induction ts1 with
  | nil =>
      intro ts2 j acc hlen hpos
      have h2 : ts2 = [] := List.length_eq_zero.mp hlen.symm
      rw [h2]
  | cons t1 ts1 ih =>
      intro ts2 j acc hlen hpos
      cases ts2 with
      | nil => simp at hlen
      | cons t2 ts2 =>
          have hhead := hpos 0 (by simp)
          simp only [List.getD_cons_zero] at hhead
          have hd : dist r t1 = dist r t2 := dist_congr hhead.1 hhead.2
          rw [scanAux_cons, scanAux_cons, hd]
          refine ih ts2 (j + 1) _ (by simpa using hlen) ?_
          intro m hm
          have := hpos (m + 1) (by simp only [List.length_cons]; omega)
          simpa using this

lemma matchAux_congr (minpeak maxrad maxsep : ℝ)
    {cat1 cat2 : List SourceRecord}
    (hlen : cat1.length = cat2.length)
    (hpos : ∀ m, m < cat1.length →
      (cat1.getD m default).cen1 = (cat2.getD m default).cen1 ∧
      (cat1.getD m default).cen2 = (cat2.getD m default).cen2) :
    ∀ (rs : List SourceRecord) (i : ℕ) (claimed : List ℕ)
      (pairs : List (ℕ × ℕ)),
      matchAux cat1 minpeak maxrad maxsep rs i claimed pairs =
        matchAux cat2 minpeak maxrad maxsep rs i claimed pairs := by
  intro rs
  induction rs with
  | nil => intro i claimed pairs; rfl
  | cons rf rs ih =>
      intro i claimed pairs
      have hscan : scanTargets rf cat1 claimed maxsep =
          scanTargets rf cat2 claimed maxsep := by
        rw [scanTargets_def, scanTargets_def]
        exact scanAux_congr rf claimed maxsep cat1 cat2 0 none hlen hpos
      rw [matchAux_cons, matchAux_cons, hscan]
      by_cases h1 : effRad rf > maxrad
      · simp only [if_pos h1]
        exact ih (i + 1) claimed pairs
      · simp only [if_neg h1]
        by_cases h2 : rf.peak < minpeak
        · simp only [if_pos h2]
          exact ih (i + 1) claimed pairs
        · simp only [if_neg h2]
          cases hscan2 : scanTargets rf cat2 claimed maxsep with
          | none =>
              exact ih (i + 1) claimed pairs
          | some q =>
              obtain ⟨j, d⟩ := q
              exact ih (i + 1) (claimed ++ [j]) (pairs ++ [(i, j)])

lemma xoffList_congr {refs cat1 cat2 : List SourceRecord}
    {pairs : List (ℕ × ℕ)}
    (hpos : ∀ m, (cat1.getD m default).cen1 = (cat2.getD m default).cen1) :
    xoffList refs cat1 pairs = xoffList refs cat2 pairs := by
  simp only [xoffList]
  congr 1
  funext p
  rw [hpos p.2]

lemma yoffList_congr {refs cat1 cat2 : List SourceRecord}
    {pairs : List (ℕ × ℕ)}
    (hpos : ∀ m, (cat1.getD m default).cen2 = (cat2.getD m default).cen2) :
    yoffList refs cat1 pairs = yoffList refs cat2 pairs := by
  simp only [yoffList]
  congr 1
  funext p
  rw [hpos p.2]

/-! Claim theorems. -/

/-- C1: when an eligible reference source takes its turn, the inner scan of
`source_match` selects, among the not-yet-claimed target sources whose planar
Euclidean distance to the reference position is strictly below
`max_separation`, one of minimal distance, and every eligible target with a
smaller index is strictly farther away, so when several unclaimed targets lie
at exactly the minimal distance the first one seen in target-catalog order
wins (later strictly-smaller distances overwrite the running minimum, equal
distances do not); moreover a target is selected whenever at least one is
eligible. -/
theorem C1_scan_selects_nearest_first_seen :
    (∀ (r : SourceRecord) (targs : List SourceRecord) (claimed : List ℕ)
       (maxsep : ℝ) (j : ℕ) (d : ℝ),
      scanTargets r targs claimed maxsep = some (j, d) →
        eligTarget r targs claimed maxsep j ∧
        d = dist r (targs.getD j default) ∧
        (∀ k, eligTarget r targs claimed maxsep k →
          d ≤ dist r (targs.getD k default)) ∧
        (∀ k < j, eligTarget r targs claimed maxsep k →
          d < dist r (targs.getD k default))) ∧
    (∀ (r : SourceRecord) (targs : List SourceRecord) (claimed : List ℕ)
       (maxsep : ℝ) (k : ℕ),
      eligTarget r targs claimed maxsep k →
        ∃ j d, scanTargets r targs claimed maxsep = some (j, d)) :=
  ⟨fun _ _ _ _ _ _ h => scanTargets_some h,
   fun _ _ _ _ _ h => scanTargets_isSome h⟩

/-- Witness for C1 at a concrete tie: seen from the origin, the targets
(3, 4) and (4, 3) are both at distance exactly 5, within maxsep 6; the scan
returns index 0 with distance 5, so index 0 is eligible and 5 is its
distance. -/
theorem C1_scan_selects_nearest_first_seen_witness :
    eligTarget srcO [src345, src435] [] 6 0 ∧
      (5 : ℝ) = dist srcO ([src345, src435].getD 0 default) :=
  ⟨(C1_scan_selects_nearest_first_seen.1 srcO [src345, src435] [] 6 0 5
      run_tie_scan).1,
   (C1_scan_selects_nearest_first_seen.1 srcO [src345, src435] [] 6 0 5
      run_tie_scan).2.1⟩

/-- C2: every matched pair of `source_match` lies at planar Euclidean
distance strictly below `max_separation`; in particular a reference source
whose only candidate target sits at distance exactly `max_separation`
(Scenario D: distance 5, maxsep 5) is never matched. -/
theorem C2_matched_distance_strictly_below_maxsep :
    (∀ (refs cat : List SourceRecord) (minpeak maxrad maxsep : ℝ) (i j : ℕ),
      (i, j) ∈ matchedPairs refs cat minpeak maxrad maxsep →
        dist (refs.getD i default) (cat.getD j default) < maxsep) ∧
    dist srcO src345 = 5 ∧
    matchedPairs [srcO] [src345] 0.2 30 5 = [] := by
  refine ⟨?_, dist_eval (by norm_num) (by norm_num [srcO, src345]), run_D_pairs⟩
  intro refs cat mp mr ms i j hmem
  obtain ⟨C, hinv⟩ := matchedPairs_inv refs cat mp mr ms
  exact (hinv.1 (i, j) hmem).2.2.2.1

/-- Witness for C2: the same catalogs with maxsep 6 do produce the pair
(0, 0), and the theorem yields its distance bound. -/
theorem C2_matched_distance_strictly_below_maxsep_witness :
    dist ([srcO].getD 0 default) ([src345].getD 0 default) < 6 :=
  C2_matched_distance_strictly_below_maxsep.1 [srcO] [src345] 0.2 30 6 0 0
    (by rw [run_D6_pairs]; simp)

/-- C3: a reference source filtered out by `effective_radius > max_radius` or
`peak < min_peak` never appears as a key of the MatchResult; and both bounds
are inclusive: the boundary source `refB` with effective radius exactly equal
to maxrad = 6 and peak exactly equal to minpeak = 0.2 is still matched. -/
theorem C3_filtered_reference_never_matched :
    (∀ (refs cat : List SourceRecord) (minpeak maxrad maxsep : ℝ) (i : ℕ),
      skipRef (refs.getD i default) minpeak maxrad →
        ∀ j, (i, j) ∉ matchedPairs refs cat minpeak maxrad maxsep) ∧
    (effRad refB = 6 ∧ refB.peak = 0.2 ∧
      matchedPairs [refB] [srcO] 0.2 6 1 = [(0, 0)]) := by
  constructor
  · intro refs cat mp mr ms i hskip j hmem
    obtain ⟨C, hinv⟩ := matchedPairs_inv refs cat mp mr ms
    exact (hinv.1 (i, j) hmem).2.1 hskip
  · exact ⟨effRad_fwhm4 (by norm_num [refB]) (by norm_num [refB]),
      by norm_num [refB], run_B_pairs⟩

/-- Witness for C3: the reference source with effective radius 50 exceeds
maxrad = 30, so index 0 never appears as a key. -/
theorem C3_filtered_reference_never_matched_witness :
    (0, 0) ∉ matchedPairs [refFat] [srcO] 0.2 30 5 :=
  C3_filtered_reference_never_matched.1 [refFat] [srcO] 0.2 30 5 0
    (Or.inl (by show effRad refFat > 30; rw [effRad_refFat]; norm_num)) 0

/-- C4: in every MatchResult each target index appears as a value at most
once, and targets are claimed greedily in reference-catalog order: when two
eligible reference sources both lie strictly within `max_separation` of the
same single target source, the reference source with the lower catalog index
claims it and the later one is left unmatched. -/
theorem C4_target_uniqueness_and_greedy_order :
    (∀ (refs cat : List SourceRecord) (minpeak maxrad maxsep : ℝ),
      ((matchedPairs refs cat minpeak maxrad maxsep).map Prod.snd).Nodup) ∧
    (∀ (r0 r1 t : SourceRecord) (minpeak maxrad maxsep : ℝ),
      ¬ skipRef r0 minpeak maxrad → ¬ skipRef r1 minpeak maxrad →
      dist r0 t < maxsep → dist r1 t < maxsep →
      matchedPairs [r0, r1] [t] minpeak maxrad maxsep = [(0, 0)]) := by
  constructor
  · intro refs cat mp mr ms
    obtain ⟨C, hinv⟩ := matchedPairs_inv refs cat mp mr ms
    exact hinv.2
  · intro r0 r1 t mp mr ms h0 h1 hd0 hd1
    simp only [skipRef, not_or] at h0 h1
    obtain ⟨h0r, h0p⟩ := h0
    obtain ⟨h1r, h1p⟩ := h1
    have hscan0 : scanTargets r0 [t] [] ms = some (0, dist r0 t) := by
      rw [scanTargets_def, scanAux_cons, if_neg (List.not_mem_nil 0), if_pos hd0]
      rfl
    have hscan1 : scanTargets r1 [t] [0] ms = none := by
      rw [scanTargets_def, scanAux_cons, if_pos (by simp : (0:ℕ) ∈ [0])]
      rfl
    rw [matchedPairs_def, matchAux_cons, if_neg h0r, if_neg h0p, hscan0]
    show matchAux [t] mp mr ms [r1] 1 [0] [(0, 0)] = [(0, 0)]
    rw [matchAux_cons, if_neg h1r, if_neg h1p, hscan1]
    rfl

/-- Witness for C4: the origin and (6, 0) are both at distance exactly 5 from
the single target (3, 4), within maxsep 6; the first reference source claims
it and the MatchResult is [(0, 0)]. -/
theorem C4_target_uniqueness_and_greedy_order_witness :
    matchedPairs [srcO, srcR6] [src345] 0.2 30 6 = [(0, 0)] :=
  C4_target_uniqueness_and_greedy_order.2 srcO srcR6 src345 0.2 30 6
    (fun h => h.elim notRad_srcO notPeak_srcO)
    (fun h => h.elim
      (fun hr => absurd hr (by
        rw [effRad_fwhm4 (by norm_num [srcR6]) (by norm_num [srcR6])]; norm_num))
      (fun hp => absurd hp (by norm_num [srcR6])))
    (dist_lt_eval (by norm_num) (by norm_num [srcO, src345]))
    (dist_lt_eval (by norm_num) (by norm_num [srcR6, src345]))

/-- C5: for every run producing N >= 1 matched pairs, `source_match` returns
as values the four arithmetic means and as errors the four population
standard deviations of the per-pair x offsets, y offsets, peak ratios and
radius ratios (first clause); the mean of a sequence is its sum divided by N
and the standard deviation is the square root of the mean squared deviation,
dividing by N and not N - 1 (second clause, spelled out on the embedded
`np.average` and `np.std`); the N = 2 run on the catalogs of `run_P1_pairs`
returns x-offset error 360 = sqrt(((3600-3960)^2 + (4320-3960)^2)/2), the
population value, where the N - 1 convention would give 360 * sqrt 2 (third
clause); with exactly one matched pair (i, j) the values are the per-pair
quantities themselves — x and y offsets (target minus reference, times 3600),
peak ratio and effective-radius ratio (target over reference) — and all four
errors are 0 (fourth clause); and the full Scenario A run returns offsets
1.08 and 0.72 arcseconds, peak ratio 1.05, radius ratio 1, with all errors 0
(fifth clause). -/
theorem C5_aggregation_means_and_population_stds :
    (∀ (cat refs : List SourceRecord) (minpeak maxrad maxsep : ℝ)
       (pairs : List (ℕ × ℕ)),
      matchedPairs refs cat minpeak maxrad maxsep = pairs → pairs ≠ [] →
      source_match cat refs minpeak maxrad maxsep =
        some ((npAverage (xoffList refs cat pairs),
               npAverage (yoffList refs cat pairs),
               npAverage (peakrList refs cat pairs),
               npAverage (rrList refs cat pairs)),
              (npStd (xoffList refs cat pairs),
               npStd (yoffList refs cat pairs),
               npStd (peakrList refs cat pairs),
               npStd (rrList refs cat pairs)))) ∧
    (∀ l : List ℝ,
      npAverage l = l.sum / (l.length : ℝ) ∧
      npStd l = Real.sqrt
        (((l.map fun x => (x - l.sum / (l.length : ℝ)) ^ 2).sum) /
          (l.length : ℝ))) ∧
    source_match [srcT1, srcT32] [srcO, srcR2] 0.2 30 1.5 =
      some ((3960, 0, 1, 1), (360, 0, 0, 0)) ∧
    (∀ (cat refs : List SourceRecord) (minpeak maxrad maxsep : ℝ) (i j : ℕ),
      matchedPairs refs cat minpeak maxrad maxsep = [(i, j)] →
      source_match cat refs minpeak maxrad maxsep =
        some ((((cat.getD j default).cen1 - (refs.getD i default).cen1) * 3600,
               ((cat.getD j default).cen2 - (refs.getD i default).cen2) * 3600,
               (cat.getD j default).peak / (refs.getD i default).peak,
               effRad (cat.getD j default) / effRad (refs.getD i default)),
              (0, 0, 0, 0))) ∧
    source_match [targA] [refA] 0.2 30 (1/360) =
      some ((1.08, 0.72, 1.05, 1), (0, 0, 0, 0)) := by
  refine ⟨?_, fun l => ⟨rfl, rfl⟩, run_P1_result, ?_, run_A_result⟩
  · intro cat refs mp mr ms pairs hpairs hne
    rw [source_match_def, hpairs, if_pos (List.length_pos.mpr hne)]
  · intro cat refs mp mr ms i j h
    rw [source_match_def, h, if_pos (by simp)]
    have hx : xoffList refs cat [(i, j)] =
        [((cat.getD j default).cen1 - (refs.getD i default).cen1) * 3600] := by
      simp [xoffList]
    have hy : yoffList refs cat [(i, j)] =
        [((cat.getD j default).cen2 - (refs.getD i default).cen2) * 3600] := by
      simp [yoffList]
    have hpk : peakrList refs cat [(i, j)] =
        [(cat.getD j default).peak / (refs.getD i default).peak] := by
      simp [peakrList]
    have hrr : rrList refs cat [(i, j)] =
        [effRad (cat.getD j default) / effRad (refs.getD i default)] := by
      simp [rrList]
    rw [hx, hy, hpk, hrr]
    simp only [npAverage_single, npStd_single]

/-- Witness for C5: applying the general clause to the concrete N = 2 run of
`run_P1_pairs` expresses its result as the four means and four population
standard deviations of the evaluated per-pair sequences. -/
theorem C5_aggregation_means_and_population_stds_witness :
    source_match [srcT1, srcT32] [srcO, srcR2] 0.2 30 1.5 =
      some ((npAverage (xoffList [srcO, srcR2] [srcT1, srcT32] [(0, 0), (1, 1)]),
             npAverage (yoffList [srcO, srcR2] [srcT1, srcT32] [(0, 0), (1, 1)]),
             npAverage (peakrList [srcO, srcR2] [srcT1, srcT32] [(0, 0), (1, 1)]),
             npAverage (rrList [srcO, srcR2] [srcT1, srcT32] [(0, 0), (1, 1)])),
            (npStd (xoffList [srcO, srcR2] [srcT1, srcT32] [(0, 0), (1, 1)]),
             npStd (yoffList [srcO, srcR2] [srcT1, srcT32] [(0, 0), (1, 1)]),
             npStd (peakrList [srcO, srcR2] [srcT1, srcT32] [(0, 0), (1, 1)]),
             npStd (rrList [srcO, srcR2] [srcT1, srcT32] [(0, 0), (1, 1)]))) :=
  C5_aggregation_means_and_population_stds.1
    [srcT1, srcT32] [srcO, srcR2] 0.2 30 1.5 [(0, 0), (1, 1)]
    run_P1_pairs (by simp)

/-- C6: the distinguished empty result (the all-None sentinel, modelled as
`none`) is returned exactly when zero pairs were matched, so no mean or
standard deviation is ever computed over an empty sequence and no result
mixes undefined entries with valid ones. -/
theorem C6_empty_sentinel_iff_no_matches :
    ∀ (cat refs : List SourceRecord) (minpeak maxrad maxsep : ℝ),
      source_match cat refs minpeak maxrad maxsep = none ↔
        matchedPairs refs cat minpeak maxrad maxsep = [] := by
  intro cat refs mp mr ms
  rw [source_match_def]
  by_cases h : 0 < (matchedPairs refs cat mp mr ms).length
  · rw [if_pos h]
    constructor
    · intro hsome
      exact absurd hsome (by simp)
    · intro hnil
      rw [hnil] at h
      simp at h
  · rw [if_neg h]
    constructor
    · intro _
      exact List.length_eq_zero.mp (Nat.eq_zero_of_not_pos h)
    · intro _
      rfl

/-- C7 (code-bug evidence): with `minpeak = 0`, a reference source whose peak
is exactly 0 passes the filter and is matched, and `source_match` returns a
normal statistics result instead of raising any error; no InvalidCatalogError
exists anywhere in the code, so the zero reference denominator flows into the
peak-ratio statistics (numpy emits inf with only a runtime warning). -/
theorem C7_zero_reference_peak_returns_result :
    matchedPairs [refZ] [srcO] 0 30 1 = [(0, 0)] ∧
    (source_match [srcO] [refZ] 0 30 1).isSome = true := by
  refine ⟨run_Z_pairs, ?_⟩
  rw [source_match_def, run_Z_pairs, if_pos (by simp)]
  rfl

/-- C8: the matcher is deterministic — identical inputs give identical
results — and order-dependent: permuting the reference catalog
[origin, (2,0)] to [(2,0), origin] against targets [(1,0), (3.2,0)] changes
the match assignments ([(0,0),(1,1)] versus [(0,0)], the latter leaving the
origin unmatched). -/
theorem C8_deterministic_and_order_dependent :
    (∀ (cat refs : List SourceRecord) (minpeak maxrad maxsep : ℝ),
      source_match cat refs minpeak maxrad maxsep =
        source_match cat refs minpeak maxrad maxsep) ∧
    List.Perm [srcR2, srcO] [srcO, srcR2] ∧
    matchedPairs [srcO, srcR2] [srcT1, srcT32] 0.2 30 1.5 ≠
      matchedPairs [srcR2, srcO] [srcT1, srcT32] 0.2 30 1.5 := by
  refine ⟨fun _ _ _ _ _ => rfl, List.Perm.swap srcO srcR2 [], ?_⟩
  rw [run_P1_pairs, run_P2_pairs]
  decide

/-- C9: an empty target catalog (violating the non-empty precondition) still
runs to completion: the inner scan is vacuous, no reference source matches,
and the empty sentinel is returned. -/
theorem C9_empty_target_catalog_returns_empty :
    ∀ (refs : List SourceRecord) (minpeak maxrad maxsep : ℝ),
      refs ≠ [] →
      matchedPairs refs [] minpeak maxrad maxsep = [] ∧
      source_match [] refs minpeak maxrad maxsep = none := by
  intro refs mp mr ms _
  have hpairs : matchedPairs refs [] mp mr ms = [] := by
    rw [matchedPairs_def]
    exact matchAux_targs_nil mp mr ms refs 0 [] []
  refine ⟨hpairs, ?_⟩
  rw [source_match_def, hpairs]
  rfl

/-- Witness for C9 on a one-source reference catalog. -/
theorem C9_empty_target_catalog_returns_empty_witness :
    matchedPairs [srcO] [] 0.2 30 10 = [] ∧
    source_match [] [srcO] 0.2 30 10 = none :=
  C9_empty_target_catalog_returns_empty [srcO] 0.2 30 10 (by simp)

/-- C10: the MatchResult and the x/y offsets are independent of the target
catalog's peak and FWHM fields: two target catalogs of the same length whose
records agree on positions produce the same matched index pairs and the same
per-pair x and y offsets (target peak and FWHM influence only the peak-ratio
and radius-ratio components). -/
theorem C10_match_independent_of_target_peak_fwhm :
    ∀ (refs cat1 cat2 : List SourceRecord) (minpeak maxrad maxsep : ℝ),
      cat1.length = cat2.length →
      (∀ m, m < cat1.length →
        (cat1.getD m default).cen1 = (cat2.getD m default).cen1 ∧
        (cat1.getD m default).cen2 = (cat2.getD m default).cen2) →
      matchedPairs refs cat1 minpeak maxrad maxsep =
        matchedPairs refs cat2 minpeak maxrad maxsep ∧
      xoffList refs cat1 (matchedPairs refs cat1 minpeak maxrad maxsep) =
        xoffList refs cat2 (matchedPairs refs cat2 minpeak maxrad maxsep) ∧
      yoffList refs cat1 (matchedPairs refs cat1 minpeak maxrad maxsep) =
        yoffList refs cat2 (matchedPairs refs cat2 minpeak maxrad maxsep) := by
  intro refs cat1 cat2 mp mr ms hlen hpos
  have hall := getD_pos_all hlen hpos
  have hpairs : matchedPairs refs cat1 mp mr ms = matchedPairs refs cat2 mp mr ms := by
    rw [matchedPairs_def, matchedPairs_def]
    exact matchAux_congr mp mr ms hlen hpos refs 0 [] []
  refine ⟨hpairs, ?_, ?_⟩
  · rw [hpairs]
    exact xoffList_congr (fun m => (hall m).1)
  · rw [hpairs]
    exact yoffList_congr (fun m => (hall m).2)

/-- Witness for C10: replacing the single target record (3,4) peak 1 FWHM 4x4
by one at the same position with peak 7 and FWHM 5x6 leaves the MatchResult
and both offset lists unchanged. -/
theorem C10_match_independent_of_target_peak_fwhm_witness :
    matchedPairs [srcO] [src345] 0.2 30 6 = matchedPairs [srcO] [srcAlt] 0.2 30 6 ∧
    xoffList [srcO] [src345] (matchedPairs [srcO] [src345] 0.2 30 6) =
      xoffList [srcO] [srcAlt] (matchedPairs [srcO] [srcAlt] 0.2 30 6) ∧
    yoffList [srcO] [src345] (matchedPairs [srcO] [src345] 0.2 30 6) =
      yoffList [srcO] [srcAlt] (matchedPairs [srcO] [srcAlt] 0.2 30 6) :=
  C10_match_independent_of_target_peak_fwhm [srcO] [src345] [srcAlt] 0.2 30 6 rfl
    (by
      intro m hm
      have hm0 : m = 0 := by simpa [Nat.lt_one_iff] using hm
      subst hm0
      exact ⟨by norm_num [src345, srcAlt], by norm_num [src345, srcAlt]⟩)

end

end TC
